import Mathlib

/-!
Shallow embedding of the UFC scraping pipeline
(`src/scrape_ufc_fights.py`, `src/scrape_ufc_stats.py`) and proofs about it.

Strings are modelled as Lean `String`s (lists of characters, ASCII semantics);
HTML documents are modelled structurally: each `soup.find`/`find_all` query is
an abstract field holding the query's result (`Option`/`List`), the markup
query primitives themselves being out of scope.  CSV files are modelled at row
level as `Option (List (List String))` (`none` = the file does not exist,
`some []` = it exists but is zero-length), the on-disk encoding being out of
scope.  Python exceptions are modelled with `Except`/`Option`.
-/

namespace UFC

/-! ## Character helpers (ASCII semantics of `str.strip`, `str.isdigit`, `int`) -/

/-- ASCII decimal digit test (`0`-`9`), the ASCII core of Python's `str.isdigit`. -/
def isAsciiDigit (c : Char) : Bool := 48 ≤ c.toNat && c.toNat ≤ 57

/-- Numeric value of an ASCII digit character. -/
def digitVal (c : Char) : Nat := c.toNat - 48

/-- The ASCII digit character for `n ≤ 9` (clamped at `'9'` above). -/
def digitChar (n : Nat) : Char :=
  match n with
  | 0 => '0' | 1 => '1' | 2 => '2' | 3 => '3' | 4 => '4'
  | 5 => '5' | 6 => '6' | 7 => '7' | 8 => '8' | _ => '9'

/-- Python whitespace (` `, `\t`, `\n`, `\r`, `\v`, `\f`), as stripped by `str.strip()`. -/
def isPySpace (c : Char) : Bool :=
  c.toNat = 32 || c.toNat = 9 || c.toNat = 10 || c.toNat = 13 || c.toNat = 11 || c.toNat = 12

/-- `str.strip()` on a character list: drop whitespace from both ends. -/
def stripL (cs : List Char) : List Char :=
  ((cs.dropWhile isPySpace).reverse.dropWhile isPySpace).reverse

/-- `str.strip()` on a `String`. -/
def pyStripS (s : String) : String := String.mk (stripL s.toList)

/-- Value denoted by a list of decimal digit characters (most significant first). -/
def denote (ds : List Char) : Nat := ds.foldl (fun a c => 10 * a + digitVal c) 0

/-- `int(s)` on a pure digit string (no sign): `some` value iff nonempty and all digits. -/
def pyIntOfDigits? (ds : List Char) : Option Nat :=
  if ds ≠ [] ∧ ds.all isAsciiDigit then some (denote ds) else none

/-- The sign handling of Python `int(str)`, applied to already-stripped characters. -/
def pyIntSigned? : List Char → Option Int
  | [] => none
  | c :: ds =>
    if c = '+' then (pyIntOfDigits? ds).map (fun n => (n : Int))
    else if c = '-' then (pyIntOfDigits? ds).map (fun n => -(n : Int))
    else (pyIntOfDigits? (c :: ds)).map (fun n => (n : Int))

/-- Python `int(str)`: strips whitespace, accepts an optional sign followed by digits,
otherwise raises `ValueError` (modelled as `none`). -/
def pyInt? (cs : List Char) : Option Int := pyIntSigned? (stripL cs)

/-- `str.split(sep)` for a one-character separator. -/
def splitOnChar (sep : Char) (cs : List Char) : List (List Char) :=
  cs.foldr
    (fun c acc =>
      if c = sep then [] :: acc
      else
        match acc with
        | h :: t => (c :: h) :: t
        | [] => [[c]])
    [[]]

/-- `str.split(":")`. -/
def splitColon (cs : List Char) : List (List Char) := splitOnChar ':' cs

/-- `str.rstrip("/")`: drop trailing slashes. -/
def rstripSlashes (s : String) : String :=
  String.mk (s.toList.reverse.dropWhile (fun c => c = '/')).reverse

/-- `s.split("/")[-1]`: the final path segment. -/
def lastSeg (s : String) : String :=
  String.mk ((splitOnChar '/' s.toList).getLastD [])

/-! ## Field normalizers (`scrape_ufc_fights.py` lines 52-87) -/

/-- The body of `parse_control_time` after `time_str.strip()`. -/
def parse_control_time_stripped (t : List Char) : Int :=
  if t = [] ∨ t = "--".toList ∨ t = "---".toList then 0
  else
    match splitColon t with
    | [p1, p2] =>
      match pyInt? p1, pyInt? p2 with
      | some a, some b => a * 60 + b
      | _, _ => 0
    | _ => 0

/-- `parse_control_time` (lines 52-63): `'4:32'` → total seconds; sentinel inputs and
parse failures return `0` (the `except ValueError` branch). -/
def parse_control_time (time_str : String) : Int :=
  parse_control_time_stripped (stripL time_str.toList)

/-- Greedy run of decimal digits (`\d+` with accumulator), returning the value and
the unconsumed remainder. -/
def digitsRun : List Char → Nat → Nat × List Char
  | c :: cs, acc =>
    if isAsciiDigit c then digitsRun cs (10 * acc + digitVal c) else (acc, c :: cs)
  | [], acc => (acc, [])

/-- `\d+` at the head of the input: requires at least one digit. -/
def takeDigits1 (cs : List Char) : Option (Nat × List Char) :=
  match cs with
  | c :: _ => if isAsciiDigit c then some (digitsRun cs 0) else none
  | [] => none

/-- `\s+` at the head of the input: at least one whitespace character, consumed greedily. -/
def ws1 : List Char → Option (List Char)
  | c :: cs => if isPySpace c then some (cs.dropWhile isPySpace) else none
  | [] => none

/-- `re.match(r"(\d+)\s+of\s+(\d+)", text)`: anchored at the start only (a prefix
match — trailing input is ignored), yielding the two captured numbers. -/
def matchXofY (cs : List Char) : Option (Nat × Nat) :=
  match takeDigits1 cs with
  | some (a, r1) =>
    match ws1 r1 with
    | some r2 =>
      match r2 with
      | 'o' :: 'f' :: r3 =>
        match ws1 r3 with
        | some r4 =>
          match takeDigits1 r4 with
          | some (b, _) => some (a, b)
          | none => none
        | none => none
      | _ => none
    | none => none
  | none => none

/-- The body of `parse_x_of_y` after `text.strip()`: the regex prefix match, then the
`isdigit` fallback. -/
def parse_x_of_y_stripped (s : List Char) : Nat × Nat :=
  match matchXofY s with
  | some ab => ab
  | none => if s ≠ [] ∧ s.all isAsciiDigit then (denote s, 0) else (0, 0)

/-- `parse_x_of_y` (lines 66-74): `'X of Y'` → `(landed, attempted)`, bare digits →
`(n, 0)`, anything else → `(0, 0)`. -/
def parse_x_of_y (text : String) : Nat × Nat :=
  parse_x_of_y_stripped (stripL text.toList)

/-! ### `datetime.strptime(raw, "%B %d, %Y")` model -/

/-- The twelve full month names recognised by `%B` (as character lists). -/
def monthNames : List (List Char) :=
  [['J','a','n','u','a','r','y'],
   ['F','e','b','r','u','a','r','y'],
   ['M','a','r','c','h'],
   ['A','p','r','i','l'],
   ['M','a','y'],
   ['J','u','n','e'],
   ['J','u','l','y'],
   ['A','u','g','u','s','t'],
   ['S','e','p','t','e','m','b','e','r'],
   ['O','c','t','o','b','e','r'],
   ['N','o','v','e','m','b','e','r'],
   ['D','e','c','e','m','b','e','r']]

/-- Case-insensitive prefix match: consume `pat` from the head of the input. -/
def matchPrefixCI : List Char → List Char → Option (List Char)
  | [], rest => some rest
  | p :: ps, c :: cs => if p.toLower = c.toLower then matchPrefixCI ps cs else none
  | _ :: _, [] => none

/-- Try each month name in turn (1-based month index on success). -/
def matchMonthGo : Nat → List (List Char) → List Char → Option (Nat × List Char)
  | _, [], _ => none
  | i, n :: ns, cs =>
    match matchPrefixCI n cs with
    | some rest => some (i + 1, rest)
    | none => matchMonthGo (i + 1) ns cs

/-- `%B`: match a full month name at the head of the input. -/
def matchMonth (cs : List Char) : Option (Nat × List Char) := matchMonthGo 0 monthNames cs

/-- `%d` as CPython compiles it: `(3[01]|[12]\d|0[1-9]|[1-9])` — one or two digits
denoting 1..31 (leading zero allowed on single-digit values). -/
def parseDay : List Char → Option (Nat × List Char)
  | c1 :: c2 :: rest =>
    if isAsciiDigit c1 then
      if isAsciiDigit c2 then
        let n := 10 * digitVal c1 + digitVal c2
        if 1 ≤ n ∧ n ≤ 31 then some (n, rest) else none
      else if 1 ≤ digitVal c1 then some (digitVal c1, c2 :: rest) else none
    else none
  | [c1] => if isAsciiDigit c1 ∧ 1 ≤ digitVal c1 then some (digitVal c1, []) else none
  | [] => none

/-- The literal `,` of the format string. -/
def litComma : List Char → Option (List Char)
  | c :: cs => if c = ',' then some cs else none
  | [] => none

/-- `%Y`: exactly four decimal digits. -/
def parseYear4 : List Char → Option (Nat × List Char)
  | a :: b :: c :: d :: rest =>
    if isAsciiDigit a ∧ isAsciiDigit b ∧ isAsciiDigit c ∧ isAsciiDigit d then
      some (1000 * digitVal a + 100 * digitVal b + 10 * digitVal c + digitVal d, rest)
    else none
  | _ => none

/-- Gregorian leap year rule used by `datetime`. -/
def isLeap (y : Nat) : Bool := y % 4 = 0 && (y % 100 ≠ 0 || y % 400 = 0)

/-- Days in month `m` of year `y` (as validated by the `datetime` constructor). -/
def daysInMonth (m y : Nat) : Nat :=
  if m = 2 then (if isLeap y then 29 else 28)
  else if m = 4 ∨ m = 6 ∨ m = 9 ∨ m = 11 then 30
  else 31

/-- The part of `"%B %d, %Y"` after the month name: `\s+`, day, `,`, `\s+`, 4-digit
year, end of input, then `datetime`'s validation (year ≥ 1, day within the month). -/
def parseRest (m : Nat) (cs : List Char) : Option (Nat × Nat × Nat) :=
  match ws1 cs with
  | some cs1 =>
    match parseDay cs1 with
    | some (d, cs2) =>
      match litComma cs2 with
      | some cs3 =>
        match ws1 cs3 with
        | some cs4 =>
          match parseYear4 cs4 with
          | some (y, cs5) =>
            if cs5 = [] ∧ 1 ≤ y ∧ d ≤ daysInMonth m y then some (y, m, d) else none
          | none => none
        | none => none
      | none => none
    | none => none
  | none => none

/-- `datetime.strptime(s, "%B %d, %Y")`: `some (year, month, day)` or `none`
(the `ValueError` path). -/
def strptimeBDY (cs : List Char) : Option (Nat × Nat × Nat) :=
  match matchMonth cs with
  | some (m, rest) => parseRest m rest
  | none => none

/-- Two-digit zero-padded rendering (`%m`, `%d` of `strftime`). -/
def pad2 (n : Nat) : List Char :=
  if n < 10 then ['0', digitChar n] else [digitChar (n / 10), digitChar (n % 10)]

/-- Four-digit zero-padded rendering (`%Y` of `strftime`), for `y ≤ 9999`. -/
def pad4 (y : Nat) : List Char :=
  [digitChar (y / 1000 % 10), digitChar (y / 100 % 10), digitChar (y / 10 % 10),
   digitChar (y % 10)]

/-- The body of `parse_event_date` after `raw.strip()`: on a successful parse the
`strftime("%Y-%m-%d")` rendering, otherwise the stripped input itself. -/
def parse_event_date_stripped (s : List Char) : String :=
  match strptimeBDY s with
  | some (y, m, d) => String.mk (pad4 y ++ '-' :: (pad2 m ++ '-' :: pad2 d))
  | none => String.mk s

/-- `parse_event_date` (lines 77-82): `'February 21, 2026'` → `'2026-02-21'`; on
`ValueError` the stripped input is returned. -/
def parse_event_date (raw : String) : String :=
  parse_event_date_stripped (stripL raw.toList)

/-! ## Fetcher (`get_soup`, `scrape_ufc_fights.py` lines 33-49)

A URL's successive responses are modelled as a function from the attempt index
to a response; `time.sleep` is modelled by accumulating the slept seconds. -/

/-- An HTTP response: status code and parsed body. -/
structure Resp (α : Type) where
  status : Nat
  body : α
deriving DecidableEq

/-- `resp.raise_for_status()` followed by returning the parsed body: an error
(the raised `HTTPError`, carrying the status) for 4xx/5xx, the body otherwise. -/
def raise_for_status {α : Type} (r : Resp α) : Except Nat α :=
  if 400 ≤ r.status then .error r.status else .ok r.body

/-- The retry loop of `get_soup`: `fuel` remaining loop iterations, `i` the index of
the next request, `slept` the seconds slept so far.  On 429 sleep `2 ^ i` and retry;
when the loop is exhausted, issue one final unconditional request. -/
def get_soup_go {α : Type} (responses : Nat → Resp α) :
    Nat → Nat → Nat → Except Nat α × Nat
  | 0, i, slept => (raise_for_status (responses i), slept)
  | fuel + 1, i, slept =>
    let r := responses i
    if r.status = 429 then get_soup_go responses fuel (i + 1) (slept + 2 ^ i)
    else (raise_for_status r, slept)

/-- `get_soup` (lines 33-49) with `MAX_RETRIES = 5`: the fetch outcome together with
the total backoff seconds slept. -/
def get_soup {α : Type} (responses : Nat → Resp α) : Except Nat α × Nat :=
  get_soup_go responses 5 0 0

/-! ## Page structures

Each structure field holds the result of the corresponding BeautifulSoup query;
`find` results are `Option`s, `find_all` results are `List`s.  Anchors are
modelled as carrying their `href` attribute. -/

/-- A `<td>` cell: `cell_texts` (the stripped texts of its `<p>` children, lines 85-87)
and its own `get_text(strip=True)`. -/
structure Cell where
  ps : List String
  txt : String
deriving DecidableEq

/-- Default cell used to model Python's in-bounds indexing. -/
def cdef : Cell := { ps := [], txt := "" }

/-- A row of the completed-events table: the `b-link` anchor's href and the
`b-statistics__date` span's stripped text, when found. -/
structure ELRow where
  link : Option String
  dateSpan : Option String
deriving DecidableEq

/-- The completed-events table: its `b-statistics__table-row` rows. -/
structure ELTable where
  rows : List ELRow
deriving DecidableEq

/-- The completed-events page: the `b-statistics__table-events` table, when found. -/
structure EventsPage where
  table : Option ELTable
deriving DecidableEq

/-- An event record produced by `scrape_events_list`: detail-page url and date. -/
structure EventRec where
  url : String
  date : String
deriving DecidableEq

/-- `scrape_events_list` (lines 94-112).  `soup.find` returning no table leaves
`table = None`, and the unguarded `table.find_all` then raises `AttributeError`
(modelled as the `Except.error`). -/
def scrape_events_list (page : EventsPage) : Except String (List EventRec) :=
  match page.table with
  | none => .error "AttributeError"
  | some t =>
    .ok (t.rows.filterMap (fun r =>
      match r.link, r.dateSpan with
      | some href, some dtext =>
        some { url := pyStripS href, date := parse_event_date dtext }
      | _, _ => none))

/-- A row of an event's fight table: its `data-link` attribute (`row.get` with
default `""` — absent is modelled as `none`, read back via `getD`) and its `<td>` cells. -/
structure EvRow where
  dataLink : Option String
  cells : List Cell
deriving DecidableEq

/-- The `b-fight-details__table` of an event page: its `tbody`, when found. -/
structure EventTable where
  tbody : Option (List EvRow)
deriving DecidableEq

/-- An event page: its fight table, when found. -/
structure EventPage where
  table : Option EventTable
deriving DecidableEq

/-- A fight record produced by `scrape_event_page` (lines 154-161). -/
structure Fight where
  fight_id : String
  fight_url : String
  event_date : String
  weight_class : String
  method : String
  round : String
deriving DecidableEq

/-- The parsing part of `scrape_event_page` (lines 115-163), applied to a fetched
document: missing table or tbody yields `[]`; rows without a `data-link` or with
fewer than 10 cells are skipped. -/
def scrape_event_page_doc (event_date : String) (page : EventPage) : List Fight :=
  match page.table with
  | none => []
  | some t =>
    match t.tbody with
    | none => []
    | some rows =>
      rows.filterMap (fun row =>
        let fight_url := pyStripS (row.dataLink.getD "")
        if fight_url = "" then none
        else if row.cells.length < 10 then none
        else
          some { fight_id := lastSeg (rstripSlashes fight_url)
                 fight_url := fight_url
                 event_date := event_date
                 weight_class := (row.cells.getD 6 cdef).txt
                 method := ((row.cells.getD 7 cdef).ps).headD ((row.cells.getD 7 cdef).txt)
                 round := (row.cells.getD 8 cdef).txt })

/-- `scrape_event_page` including its `get_soup` fetch: `responses url i` is the
response to the `i`-th request for `url`; a fetch failure propagates. -/
def scrape_event_page (event_url event_date : String)
    (responses : String → Nat → Resp EventPage) : Except Nat (List Fight) :=
  match get_soup (responses event_url) with
  | (.ok page, _) => .ok (scrape_event_page_doc event_date page)
  | (.error e, _) => .error e

/-- A `b-fight-details__person` block: the person anchor's href (first of the two
`find` alternatives that succeeds) and the status `<i>`'s stripped text, when found. -/
structure PersonBlock where
  link : Option String
  status : Option String
deriving DecidableEq

/-- A `<table>` of the fight-detail page: its `tbody` (a list of `<tr>` rows, each a
list of `<td>` cells), when found. -/
structure DetailTable where
  tbody : Option (List (List Cell))
deriving DecidableEq

/-- A fight-detail page: its person blocks and its `<table>` elements in order. -/
structure FightPage where
  persons : List PersonBlock
  tables : List DetailTable
deriving DecidableEq

/-- One per-fighter stats record produced by `scrape_fight_detail` (lines 236-246). -/
structure StatRow where
  fight_id : String
  fighter_id : String
  result : String
  sig_strikes : Nat
  sig_attempted : Nat
  td : Nat
  td_attempted : Nat
  sub_attempts : Nat
  control_time : Int
deriving DecidableEq

/-- The fighter identities and results collected from the person blocks
(lines 180-191): one `(fighter_id, result)` pair per block that has a link. -/
def fightersOf (page : FightPage) : List (String × String) :=
  page.persons.filterMap (fun p =>
    p.link.map (fun href =>
      (lastSeg (rstripSlashes (pyStripS href)), p.status.getD "")))

/-- `scrape_fight_detail` (lines 166-248), applied to a fetched document. -/
def scrape_fight_detail (fight_url : String) (page : FightPage) : List StatRow :=
  let fight_id := lastSeg (rstripSlashes fight_url)
  let fighters := fightersOf page
  if fighters.length ≠ 2 then []
  else
    match page.tables with
    | [] => []
    | t0 :: _ =>
      match t0.tbody with
      | none => []
      | some trs =>
        match trs.head? with
        | none => []
        | some cells =>
          if cells.length < 10 then []
          else
            (List.range 2).map (fun idx =>
              let sig := parse_x_of_y (((cells.getD 2 cdef).ps).getD idx "")
              let tds := parse_x_of_y (((cells.getD 5 cdef).ps).getD idx "")
              let sub_text := ((cells.getD 7 cdef).ps).getD idx "0"
              let ctrl_text := ((cells.getD 9 cdef).ps).getD idx "0:00"
              { fight_id := fight_id
                fighter_id := ((fighters.getD idx ("", "")).1)
                result := ((fighters.getD idx ("", "")).2)
                sig_strikes := sig.1
                sig_attempted := sig.2
                td := tds.1
                td_attempted := tds.2
                sub_attempts :=
                  if sub_text.toList ≠ [] ∧ sub_text.toList.all isAsciiDigit
                  then denote sub_text.toList else 0
                control_time := parse_control_time ctrl_text })

/-- `scrape_fight_detail` including its `get_soup` fetch. -/
def scrape_fight_detail_r (fight_url : String)
    (responses : String → Nat → Resp FightPage) : Except Nat (List StatRow) :=
  match get_soup (responses fight_url) with
  | (.ok page, _) => .ok (scrape_fight_detail fight_url page)
  | (.error e, _) => .error e

/-- The worker wrapper `_scrape_event` in `main` (lines 296-301): any exception is
caught at the worker boundary and the task contributes an empty list. -/
def scrape_event_worker (responses : String → Nat → Resp EventPage)
    (ev : EventRec) : List Fight :=
  match scrape_event_page ev.url ev.date responses with
  | .ok fights => fights
  | .error _ => []

/-- The worker wrapper `_scrape_fight` in `main` (lines 340-345). -/
def scrape_fight_worker (responses : String → Nat → Resp FightPage)
    (f : Fight) : List StatRow :=
  match scrape_fight_detail_r f.fight_url responses with
  | .ok rows => rows
  | .error _ => []

/-- Phase-1 collection (lines 304-313): every event task's contribution, concatenated. -/
def collect_fight_rows (responses : String → Nat → Resp EventPage)
    (events : List EventRec) : List Fight :=
  (events.map (scrape_event_worker responses)).flatten

/-- Phase-2 collection (lines 348-357). -/
def collect_stat_rows (responses : String → Nat → Resp FightPage)
    (fights : List Fight) : List StatRow :=
  (fights.map (scrape_fight_worker responses)).flatten

/-! ## Fighter-list parser (`scrape_ufc_stats.py` lines 14-42) -/

/-- A row of the fighters table: the href of `row.find("a", href=True)`, when found. -/
structure FTRow where
  link : Option String
deriving DecidableEq

/-- The first `<table>` of the fighters page: its `tbody`, when found. -/
structure FTable where
  tbody : Option (List FTRow)
deriving DecidableEq

/-- The fighters listing page for one letter: its first `<table>`, when found. -/
structure FightersPage where
  table : Option FTable
deriving DecidableEq

/-- `get_fighter_ids_for_letter` (lines 14-42).  A non-200 status returns the empty
set; a missing table makes `table.find("tbody")` raise `AttributeError`, which the
enclosing `except` catches, returning the (still empty) set; a missing tbody is
checked explicitly. -/
def get_fighter_ids_for_letter (status : Nat) (page : FightersPage) : List String :=
  if status ≠ 200 then []
  else
    match page.table with
    | none => []
    | some t =>
      match t.tbody with
      | none => []
      | some rows =>
        rows.filterMap (fun r => r.link.map (fun href => lastSeg (rstripSlashes href)))

/-! ## Persistence (`scrape_ufc_fights.py` lines 255-269 and 315-323, 327-364;
`scrape_ufc_stats.py` lines 188-198) -/

/-- `FIGHTS_FIELDS` (line 255). -/
def FIGHTS_FIELDS : List String :=
  ["fight_id", "event_date", "weight_class", "method", "round"]

/-- `STATS_FIELDS` (lines 256-259). -/
def STATS_FIELDS : List String :=
  ["fight_id", "fighter_id", "result", "sig_strikes", "sig_attempted",
   "td", "td_attempted", "sub_attempts", "control_time"]

/-- The CSV row written for a fight (line 322, projecting on `FIGHTS_FIELDS`). -/
def fightToRow (f : Fight) : List String :=
  [f.fight_id, f.event_date, f.weight_class, f.method, f.round]

/-- The CSV row written for a stats record (line 364). -/
def statToRow (r : StatRow) : List String :=
  [r.fight_id, r.fighter_id, r.result, toString r.sig_strikes, toString r.sig_attempted,
   toString r.td, toString r.td_attempted, toString r.sub_attempts, toString r.control_time]

/-- `path.exists() and path.stat().st_size > 0` (lines 292, 329). -/
def fileExisted (file : Option (List (List String))) : Bool :=
  match file with
  | none => false
  | some rows => ¬ rows.isEmpty

/-- `load_existing_ids` (lines 262-269): the set of values of column `id_column`
over the data rows, via `csv.DictReader` (the first row is the header; a data row
shorter than the column index yields `None`, modelled as the inner `none`).
A header lacking `id_column` makes `row[id_column]` raise `KeyError` on the first
data row (the outer `none`); with no data rows the loop never runs. -/
def load_existing_ids (file : Option (List (List String))) (id_column : String) :
    Option (List (Option String)) :=
  match file with
  | none => some []
  | some [] => some []
  | some (hdr :: rows) =>
    match hdr.findIdx? (fun c => c = id_column) with
    | none => if rows = [] then some [] else none
    | some i => some (rows.map (fun r => r.get? i))

/-- The fights-CSV write (lines 317-323), file-content view: append mode when the
file existed non-empty, otherwise write mode with a fresh header first. -/
def fights_csv_write (file : Option (List (List String))) (new_rows : List Fight) :
    List (List String) :=
  let existed := fileExisted file
  let base := if existed then file.getD [] else []
  (if existed then base else base ++ [FIGHTS_FIELDS]) ++ new_rows.map fightToRow

/-- The stats-CSV write (lines 360-364). -/
def stats_csv_write (file : Option (List (List String))) (all_stat_rows : List StatRow) :
    List (List String) :=
  let existed := fileExisted file
  let base := if existed then file.getD [] else []
  (if existed then base else base ++ [STATS_FIELDS]) ++ all_stat_rows.map statToRow

/-- Phase 1 of `main` (lines 291-323) from the collected fight rows onwards:
load the existing ids, filter the collected rows against them once, then run the
write loop, which appends each surviving row and adds its id to the in-memory set.
Returns the final file content and the final id set (as a list); `none` models a
`KeyError` escaping `load_existing_ids`. -/
def phase1 (file : Option (List (List String))) (all_fight_rows : List Fight) :
    Option (List (List String) × List (Option String)) :=
  match load_existing_ids file "fight_id" with
  | none => none
  | some existing =>
    let existed := fileExisted file
    let new_rows := all_fight_rows.filter (fun f => ¬ existing.contains (some f.fight_id))
    let base := if existed then file.getD [] else []
    let start := if existed then base else base ++ [FIGHTS_FIELDS]
    some (new_rows.foldl
      (fun acc f => (acc.1 ++ [fightToRow f], acc.2 ++ [some f.fight_id]))
      (start, existing))

/-- The column order of the fighters CSV: `fighters[0].keys()`, i.e. the key
insertion order of `clean_fighter_stats`'s result (`scrape_ufc_stats.py` lines 166-186). -/
def FIGHTER_FIELDS : List String :=
  ["fighter_id", "name", "nickname", "wins", "losses", "ties", "height_in",
   "weight_lb", "reach_in", "stance", "age", "slpm", "str_acc_dec", "sapm",
   "str_def_dec", "td_avg", "td_acc_dec", "td_def_dec", "sub_avg"]

/-- `save_to_csv` (`scrape_ufc_stats.py` lines 188-198), fighters already rendered to
rows: an empty list returns without touching the file; otherwise the file is opened
with mode `"w"` (truncating any existing content) and a header row is always written
before the data rows. -/
def save_to_csv (file : Option (List (List String))) (fighters : List (List String)) :
    Option (List (List String)) :=
  match fighters with
  | [] => file
  | _ => some (FIGHTER_FIELDS :: fighters)

/-- A well-formed fights CSV file: absent, zero-length, or headed by `FIGHTS_FIELDS`. -/
def wfFights (file : Option (List (List String))) : Prop :=
  file = none ∨ file = some [] ∨ ∃ rows, file = some (FIGHTS_FIELDS :: rows)

/-! ## Helper lemmas -/

theorem dropWhile_eq_self_of_head {p : Char → Bool} :
    ∀ (l : List Char), (∀ c, l.head? = some c → p c = false) → l.dropWhile p = l
  | [], _ => rfl
  | c :: cs, h => by simp [List.dropWhile, h c rfl]

theorem stripL_eq_self {l : List Char}
    (h1 : ∀ c, l.head? = some c → isPySpace c = false)
    (h2 : ∀ c, l.getLast? = some c → isPySpace c = false) :
    stripL l = l := by
  unfold stripL
  rw [dropWhile_eq_self_of_head l h1,
      dropWhile_eq_self_of_head l.reverse
        (by intro c hc; rw [List.head?_reverse] at hc; exact h2 c hc),
      List.reverse_reverse]

theorem toNat_bounds_of_digit {c : Char} (h : isAsciiDigit c = true) :
    48 ≤ c.toNat ∧ c.toNat ≤ 57 := by
  simpa [isAsciiDigit] using h

theorem isPySpace_of_digit {c : Char} (h : isAsciiDigit c = true) :
    isPySpace c = false := by
  obtain ⟨h1, h2⟩ := toNat_bounds_of_digit h
  simp [isPySpace]
  omega

theorem digit_ne {c d : Char} (h : isAsciiDigit c = true)
    (hd : d.toNat < 48 ∨ 57 < d.toNat) : c ≠ d := by
  intro he
  obtain ⟨h1, h2⟩ := toNat_bounds_of_digit h
  subst he
  omega

theorem digitVal_le_nine {c : Char} (h : isAsciiDigit c = true) : digitVal c ≤ 9 := by
  obtain ⟨h1, h2⟩ := toNat_bounds_of_digit h
  unfold digitVal
  omega

theorem isAsciiDigit_digitChar : ∀ k, isAsciiDigit (digitChar k) = true := by
  intro k
  rcases k with _ | _ | _ | _ | _ | _ | _ | _ | _ | k <;> rfl

theorem isPySpace_digitChar : ∀ k, isPySpace (digitChar k) = false := by
  intro k
  rcases k with _ | _ | _ | _ | _ | _ | _ | _ | _ | k <;> rfl

theorem digitVal_digitChar {k : Nat} (h : k ≤ 9) : digitVal (digitChar k) = k := by
  interval_cases k <;> rfl

theorem all_digits_stripL {ds : List Char} (h : ds.all isAsciiDigit = true) :
    stripL ds = ds := by
  apply stripL_eq_self
  · intro c hc
    exact isPySpace_of_digit
      (by simpa using List.all_eq_true.mp h c (List.mem_of_mem_head? (by simp [hc])))
  · intro c hc
    exact isPySpace_of_digit
      (by simpa using List.all_eq_true.mp h c (List.mem_of_mem_getLast? (by simp [hc])))

theorem digitsRun_append (ds rest : List Char) (acc : Nat)
    (hds : ∀ c ∈ ds, isAsciiDigit c = true)
    (hrest : ∀ c, rest.head? = some c → isAsciiDigit c = false) :
    digitsRun (ds ++ rest) acc
      = (ds.foldl (fun a c => 10 * a + digitVal c) acc, rest) := by
  induction ds generalizing acc with
  | nil =>
    cases rest with
    | nil => rfl
    | cons c cs => simp [digitsRun, hrest c rfl]
  | cons c cs ih =>
    have hc : isAsciiDigit c = true := hds c (by simp)
    simp [digitsRun, hc,
      ih (10 * acc + digitVal c) (fun x hx => hds x (by simp [hx]))]

theorem splitOnChar_cons (sep c : Char) (cs : List Char) :
    splitOnChar sep (c :: cs) =
      (if c = sep then [] :: splitOnChar sep cs
       else
        match splitOnChar sep cs with
        | h :: t => (c :: h) :: t
        | [] => [[c]]) := rfl

theorem splitOnChar_no_sep {sep : Char} :
    ∀ {l : List Char}, sep ∉ l → splitOnChar sep l = [l]
  | [], _ => rfl
  | c :: cs, h => by
    have hc : ¬ c = sep := fun he => h (he ▸ List.mem_cons_self c cs)
    have ih := splitOnChar_no_sep (fun hm => h (List.mem_cons_of_mem c hm))
    rw [splitOnChar_cons, if_neg hc, ih]

theorem splitOnChar_append_sep {sep : Char} :
    ∀ {ms : List Char} (ss : List Char), sep ∉ ms →
      splitOnChar sep (ms ++ sep :: ss) = ms :: splitOnChar sep ss
  | [], ss, _ => by rw [List.nil_append, splitOnChar_cons, if_pos rfl]
  | c :: ms, ss, h => by
    have hc : ¬ c = sep := fun he => h (he ▸ List.mem_cons_self c ms)
    have ih := splitOnChar_append_sep ss (fun hm => h (List.mem_cons_of_mem c hm))
    rw [List.cons_append, splitOnChar_cons, if_neg hc, ih]

theorem pyIntOfDigits?_of_digits {ds : List Char} (h1 : ds ≠ [])
    (h2 : ds.all isAsciiDigit = true) : pyIntOfDigits? ds = some (denote ds) := by
  simp [pyIntOfDigits?, h1, h2]

theorem getLast?_append_right {l1 l2 : List Char} (h : l2 ≠ []) :
    (l1 ++ l2).getLast? = l2.getLast? :=
  List.getLast?_append_of_ne_nil l1 h

theorem pyInt?_of_digits {ds : List Char} (h1 : ds ≠ [])
    (h2 : ds.all isAsciiDigit = true) : pyInt? ds = some ((denote ds : Nat) : Int) := by
  unfold pyInt?
  rw [all_digits_stripL h2]
  cases ds with
  | nil => exact absurd rfl h1
  | cons c cs =>
    have hc : isAsciiDigit c = true := by
      simpa using List.all_eq_true.mp h2 c (by simp)
    have hplus : c ≠ '+' := digit_ne hc (by left; decide)
    have hminus : c ≠ '-' := digit_ne hc (by left; decide)
    rw [pyIntSigned?, if_neg hplus, if_neg hminus, pyIntOfDigits?_of_digits (by simp) h2]
    rfl

/-! ## Claim C3: fetcher retry/backoff -/

/-- C3: on rate-limit (429) responses `get_soup` retries up to 5 attempts, sleeping
`2 ^ attempt` seconds before each retry (1, 2, 4, 8, 16), then issues one final
unconditional attempt; in particular if the first 4 attempts return 429 and the
5th succeeds, it returns the parsed document with no error after exactly
1+2+4+8 = 15 seconds of accumulated backoff sleep. -/
theorem get_soup_retries_with_backoff {α : Type} (responses : Nat → Resp α) :
    ((∀ i, i < 4 → (responses i).status = 429) → (responses 4).status = 200 →
      get_soup responses = (.ok (responses 4).body, 15))
    ∧ ((∀ i, i < 5 → (responses i).status = 429) →
      get_soup responses = (raise_for_status (responses 5), 31)) := by
  constructor
  · intro h4 hok
    have h0 := h4 0 (by omega)
    have h1 := h4 1 (by omega)
    have h2 := h4 2 (by omega)
    have h3 := h4 3 (by omega)
    simp [get_soup, get_soup_go, h0, h1, h2, h3, hok, raise_for_status]
  · intro h
    have h0 := h 0 (by omega)
    have h1 := h 1 (by omega)
    have h2 := h 2 (by omega)
    have h3 := h 3 (by omega)
    have h4 := h 4 (by omega)
    simp [get_soup, get_soup_go, h0, h1, h2, h3, h4]

/-- Witness for C3: a concrete response sequence with four 429s then a success. -/
theorem get_soup_retries_with_backoff_witness :
    get_soup (fun i => if i < 4 then ({ status := 429, body := "rate" } : Resp String)
      else { status := 200, body := "doc" }) = (.ok "doc", 15) := by
  have h := (get_soup_retries_with_backoff
    (fun i => if i < 4 then ({ status := 429, body := "rate" } : Resp String)
      else { status := 200, body := "doc" })).1
    (by intro i hi; interval_cases i <;> rfl) (by rfl)
  simpa using h

/-! ## Claim C2: fight-detail parser yields exactly two rows or none -/

/-- C2: `scrape_fight_detail` always returns zero or exactly two participant-result
rows; a participant count other than two, a missing stats table, tbody, or row, or a
row with fewer than 10 cells, each yield the empty result. -/
theorem scrape_fight_detail_two_or_zero (fight_url : String) (page : FightPage) :
    ((scrape_fight_detail fight_url page).length = 0
      ∨ (scrape_fight_detail fight_url page).length = 2)
    ∧ ((fightersOf page).length ≠ 2 → scrape_fight_detail fight_url page = [])
    ∧ (page.tables = [] → scrape_fight_detail fight_url page = [])
    ∧ (∀ t0 ts, page.tables = t0 :: ts → t0.tbody = none →
        scrape_fight_detail fight_url page = [])
    ∧ (∀ t0 ts trs, page.tables = t0 :: ts → t0.tbody = some trs → trs.head? = none →
        scrape_fight_detail fight_url page = [])
    ∧ (∀ t0 ts trs cells, page.tables = t0 :: ts → t0.tbody = some trs →
        trs.head? = some cells → cells.length < 10 →
        scrape_fight_detail fight_url page = []) := by
  refine ⟨?_, ?_, ?_, ?_, ?_, ?_⟩
  · by_cases hf : (fightersOf page).length ≠ 2
    · simp [scrape_fight_detail, hf]
    · rcases htab : page.tables with _ | ⟨t0, ts⟩
      · simp [scrape_fight_detail, hf, htab]
      · rcases htb : t0.tbody with _ | trs
        · simp [scrape_fight_detail, hf, htab, htb]
        · rcases hh : trs.head? with _ | cells
          · simp [scrape_fight_detail, hf, htab, htb, hh]
          · by_cases hc : cells.length < 10
            · simp [scrape_fight_detail, hf, htab, htb, hh, hc]
            · simp [scrape_fight_detail, hf, htab, htb, hh, hc]
  · intro hf
    simp [scrape_fight_detail, hf]
  · intro ht
    by_cases hf : (fightersOf page).length ≠ 2 <;> simp [scrape_fight_detail, hf, ht]
  · intro t0 ts ht htb
    by_cases hf : (fightersOf page).length ≠ 2 <;>
      simp [scrape_fight_detail, hf, ht, htb]
  · intro t0 ts trs ht htb hh
    by_cases hf : (fightersOf page).length ≠ 2 <;>
      simp [scrape_fight_detail, hf, ht, htb, hh]
  · intro t0 ts trs cells ht htb hh hlen
    by_cases hf : (fightersOf page).length ≠ 2 <;>
      simp [scrape_fight_detail, hf, ht, htb, hh, hlen]

/-- Witness for C2: a page with no participant blocks yields the empty result. -/
theorem scrape_fight_detail_two_or_zero_witness :
    scrape_fight_detail "http://ufcstats.com/fight-details/f1" { persons := [], tables := [] } = []
    ∧ (fightersOf { persons := [], tables := [] }).length ≠ 2 :=
  ⟨(scrape_fight_detail_two_or_zero "http://ufcstats.com/fight-details/f1"
      { persons := [], tables := [] }).2.1 (by decide), by decide⟩

/-! ## Claim C6: worker-boundary exception handling -/

/-- C6: the worker wrappers `_scrape_event` and `_scrape_fight` catch any failure of
the task's fetch+parse and contribute an empty result; a successful task contributes
its rows; and a failing task never disturbs its siblings' contributions to the
collected phase result. -/
theorem workers_catch_failures (respE : String → Nat → Resp EventPage)
    (respF : String → Nat → Resp FightPage) (ev : EventRec) (f : Fight) :
    (∀ e, scrape_event_page ev.url ev.date respE = .error e →
      scrape_event_worker respE ev = [])
    ∧ (∀ rows, scrape_event_page ev.url ev.date respE = .ok rows →
      scrape_event_worker respE ev = rows)
    ∧ (∀ e, scrape_fight_detail_r f.fight_url respF = .error e →
      scrape_fight_worker respF f = [])
    ∧ (∀ rows, scrape_fight_detail_r f.fight_url respF = .ok rows →
      scrape_fight_worker respF f = rows)
    ∧ (∀ (evs1 evs2 : List EventRec) e,
        scrape_event_page ev.url ev.date respE = .error e →
        collect_fight_rows respE (evs1 ++ ev :: evs2)
          = collect_fight_rows respE evs1 ++ collect_fight_rows respE evs2)
    ∧ (∀ (fs1 fs2 : List Fight) e,
        scrape_fight_detail_r f.fight_url respF = .error e →
        collect_stat_rows respF (fs1 ++ f :: fs2)
          = collect_stat_rows respF fs1 ++ collect_stat_rows respF fs2) := by
  refine ⟨?_, ?_, ?_, ?_, ?_, ?_⟩
  · intro e he
    simp [scrape_event_worker, he]
  · intro rows hr
    simp [scrape_event_worker, hr]
  · intro e he
    simp [scrape_fight_worker, he]
  · intro rows hr
    simp [scrape_fight_worker, hr]
  · intro evs1 evs2 e he
    have hw : scrape_event_worker respE ev = [] := by simp [scrape_event_worker, he]
    simp [collect_fight_rows, hw]
  · intro fs1 fs2 e he
    have hw : scrape_fight_worker respF f = [] := by simp [scrape_fight_worker, he]
    simp [collect_stat_rows, hw]

/-- Witness for C6: a task whose every fetch attempt returns a server error
contributes the empty list. -/
theorem workers_catch_failures_witness :
    scrape_event_worker (fun _ _ => { status := 500, body := { table := none } })
      { url := "http://ufcstats.com/event-details/e1", date := "2026-02-21" } = [] :=
  (workers_catch_failures (fun _ _ => { status := 500, body := { table := none } })
      (fun _ _ => { status := 500, body := { persons := [], tables := [] } })
      { url := "http://ufcstats.com/event-details/e1", date := "2026-02-21" }
      { fight_id := "f1", fight_url := "u", event_date := "d", weight_class := "w",
        method := "m", round := "1" }).1 500 (by rfl)

/-! ## Persistence lemmas -/

theorem getD_nil_of_not_existed {file : Option (List (List String))}
    (h : fileExisted file = false) : file.getD [] = [] := by
  cases file with
  | none => rfl
  | some rows =>
    cases rows with
    | nil => rfl
    | cons r rs => simp [fileExisted] at h

theorem map_get0_fightToRow (l : List Fight) :
    (l.map fightToRow).map (fun r => r.get? 0) = l.map (fun f => some f.fight_id) := by
  induction l with
  | nil => rfl
  | cons f fs ih => simp only [List.map_cons, ih, fightToRow, List.get?]

theorem foldl_write_append (new : List Fight) :
    ∀ (rows : List (List String)) (ids : List (Option String)),
      new.foldl (fun acc f => (acc.1 ++ [fightToRow f], acc.2 ++ [some f.fight_id]))
          (rows, ids)
        = (rows ++ new.map fightToRow, ids ++ new.map (fun f => some f.fight_id)) := by
  induction new with
  | nil => intro rows ids; simp
  | cons f fs ih =>
    intro rows ids
    simp only [List.foldl_cons, ih, List.map_cons]
    simp

theorem findIdx_fight_id :
    FIGHTS_FIELDS.findIdx? (fun c => c = "fight_id") = some 0 := by decide

/-! ## Claim C1: header negotiation and append-only writes -/

/-- C1 (amended): the fights and stats CSV writers of `scrape_ufc_fights.py` emit a
header iff the file did not exist or was zero-length, append after the preserved
prior content otherwise; but `save_to_csv` of `scrape_ufc_stats.py`, given a
nonempty record list, truncates the file and always writes a fresh header. -/
theorem csv_writers_header_behavior (ffile sfile pfile : Option (List (List String)))
    (new_rows : List Fight) (stat_rows : List StatRow) (fighters : List (List String)) :
    fights_csv_write ffile new_rows
      = ffile.getD [] ++ (if fileExisted ffile then [] else [FIGHTS_FIELDS])
          ++ new_rows.map fightToRow
    ∧ (∃ t, fights_csv_write ffile new_rows = ffile.getD [] ++ t)
    ∧ stats_csv_write sfile stat_rows
      = sfile.getD [] ++ (if fileExisted sfile then [] else [STATS_FIELDS])
          ++ stat_rows.map statToRow
    ∧ (∃ t, stats_csv_write sfile stat_rows = sfile.getD [] ++ t)
    ∧ (fighters ≠ [] → save_to_csv pfile fighters = some (FIGHTER_FIELDS :: fighters)) := by
  have hf : fights_csv_write ffile new_rows
      = ffile.getD [] ++ (if fileExisted ffile then [] else [FIGHTS_FIELDS])
          ++ new_rows.map fightToRow := by
    unfold fights_csv_write
    by_cases h : fileExisted ffile
    · simp [h]
    · simp [h, getD_nil_of_not_existed (by simpa using h)]
  have hs : stats_csv_write sfile stat_rows
      = sfile.getD [] ++ (if fileExisted sfile then [] else [STATS_FIELDS])
          ++ stat_rows.map statToRow := by
    unfold stats_csv_write
    by_cases h : fileExisted sfile
    · simp [h]
    · simp [h, getD_nil_of_not_existed (by simpa using h)]
  refine ⟨hf, ⟨_, by rw [hf, List.append_assoc]⟩, hs, ⟨_, by rw [hs, List.append_assoc]⟩, ?_⟩
  intro hne
  cases fighters with
  | nil => exact absurd rfl hne
  | cons f fs => rfl

/-- Witness for C1: instances of the amended statement at concrete inputs. -/
theorem csv_writers_header_behavior_witness :
    fights_csv_write none [] = [FIGHTS_FIELDS]
    ∧ save_to_csv none [["r"]] = some (FIGHTER_FIELDS :: [["r"]]) := by
  have h := csv_writers_header_behavior none none none [] [] [["r"]]
  exact ⟨by simpa using h.1, h.2.2.2.2 (by simp)⟩

/-- Counterexample for C1: on an existing non-empty fighters dataset, `save_to_csv`
writes a header row again and discards the previously written data row. -/
theorem save_to_csv_truncates :
    save_to_csv (some [FIGHTER_FIELDS, ["prior-row"]]) [["new-row"]]
      = some [FIGHTER_FIELDS, ["new-row"]]
    ∧ fileExisted (some [FIGHTER_FIELDS, ["prior-row"]]) = true
    ∧ ["prior-row"] ∉ [FIGHTER_FIELDS, ["new-row"]] := by
  refine ⟨rfl, rfl, ?_⟩
  decide

/-! ## Claim C4: load/write round-trip -/

/-- C4: writing records through the fights writer and re-running
`load_existing_ids` yields exactly the previously existing ids together with the
ids of the newly appended rows. -/
theorem load_after_write_roundtrip (file : Option (List (List String)))
    (new_rows : List Fight) (h : wfFights file) :
    ∃ prior after,
      load_existing_ids file "fight_id" = some prior
      ∧ load_existing_ids (some (fights_csv_write file new_rows)) "fight_id" = some after
      ∧ ∀ x, x ∈ after ↔ x ∈ prior ∨ x ∈ new_rows.map (fun f => some f.fight_id) := by
  rcases h with h | h | ⟨rows, h⟩
  · subst h
    refine ⟨[], new_rows.map (fun f => some f.fight_id), rfl, ?_, by simp⟩
    simp [fights_csv_write, fileExisted, load_existing_ids, findIdx_fight_id]
    intro a _
    rfl
  · subst h
    refine ⟨[], new_rows.map (fun f => some f.fight_id), rfl, ?_, by simp⟩
    simp [fights_csv_write, fileExisted, load_existing_ids, findIdx_fight_id]
    intro a _
    rfl
  · subst h
    refine ⟨rows.map (fun r => r.get? 0),
      rows.map (fun r => r.get? 0) ++ new_rows.map (fun f => some f.fight_id),
      ?_, ?_, by simp⟩
    · simp [load_existing_ids, findIdx_fight_id]
    · simp [fights_csv_write, fileExisted, load_existing_ids, findIdx_fight_id]
      intro a _
      rfl

/-- Witness for C4: round-trip through an absent file with one new row. -/
theorem load_after_write_roundtrip_witness :
    ∃ prior after,
      load_existing_ids none "fight_id" = some prior
      ∧ load_existing_ids
          (some (fights_csv_write none
            [{ fight_id := "f9", fight_url := "u", event_date := "d",
               weight_class := "w", method := "m", round := "3" }])) "fight_id"
          = some after
      ∧ ∀ x, x ∈ after ↔ x ∈ prior
          ∨ x ∈ [({ fight_id := "f9", fight_url := "u", event_date := "d",
                      weight_class := "w", method := "m", round := "3" } : Fight)].map
              (fun f => some f.fight_id) :=
  load_after_write_roundtrip none
    [{ fight_id := "f9", fight_url := "u", event_date := "d",
       weight_class := "w", method := "m", round := "3" }] (Or.inl rfl)

/-! ## Claim C10: within-run duplicate fight ids -/

/-- Counterexample for C10: two collected rows sharing a `fight_id`, both absent from
the dataset, are both written by the phase-1 write loop — the in-loop additions to
the id set do not filter them. -/
theorem phase1_writes_duplicate_ids :
    phase1 none
      [{ fight_id := "f1", fight_url := "u", event_date := "d",
         weight_class := "w", method := "KO", round := "1" },
       { fight_id := "f1", fight_url := "u", event_date := "d",
         weight_class := "w", method := "SUB", round := "2" }]
      = some ([FIGHTS_FIELDS, ["f1", "d", "w", "KO", "1"], ["f1", "d", "w", "SUB", "2"]],
              [some "f1", some "f1"])
    ∧ (["f1", "d", "w", "KO", "1"] : List String).get? 0
        = (["f1", "d", "w", "SUB", "2"] : List String).get? 0 := by
  exact ⟨by decide, rfl⟩

/-- C10 (amended): the phase-1 write loop writes exactly the collected rows that
survive the single up-front filter against the ids loaded at startup; the in-loop
id-set additions do not affect which rows are written (they only feed the final
count), so in-run duplicate ids are each written. -/
theorem phase1_filter_is_upfront (file : Option (List (List String)))
    (all_fight_rows : List Fight) (h : wfFights file) :
    ∃ existing,
      load_existing_ids file "fight_id" = some existing
      ∧ phase1 file all_fight_rows = some
        ((if fileExisted file then file.getD [] else [FIGHTS_FIELDS])
            ++ (all_fight_rows.filter
                (fun f => ¬ existing.contains (some f.fight_id))).map fightToRow,
         existing ++ (all_fight_rows.filter
            (fun f => ¬ existing.contains (some f.fight_id))).map
              (fun f => some f.fight_id)) := by
  have hload : ∀ ex, load_existing_ids file "fight_id" = some ex →
      phase1 file all_fight_rows = some
        ((if fileExisted file then file.getD [] else [FIGHTS_FIELDS])
            ++ (all_fight_rows.filter
                (fun f => ¬ ex.contains (some f.fight_id))).map fightToRow,
         ex ++ (all_fight_rows.filter
            (fun f => ¬ ex.contains (some f.fight_id))).map (fun f => some f.fight_id)) := by
    intro ex hex
    unfold phase1
    rw [hex]
    simp only [foldl_write_append]
    by_cases hE : fileExisted file
    · simp [hE]
    · simp [hE, getD_nil_of_not_existed (by simpa using hE)]
  rcases h with h | h | ⟨rows, h⟩
  · exact ⟨[], by subst h; exact ⟨rfl, hload [] rfl⟩⟩
  · exact ⟨[], by subst h; exact ⟨rfl, hload [] rfl⟩⟩
  · refine ⟨rows.map (fun r => r.get? 0), ?_, ?_⟩
    · subst h; simp [load_existing_ids, findIdx_fight_id]
    · exact hload _ (by subst h; simp [load_existing_ids, findIdx_fight_id])

/-- Witness for C10 (amended): the dataset-absent case with one collected row. -/
theorem phase1_filter_is_upfront_witness :
    ∃ existing,
      load_existing_ids none "fight_id" = some existing
      ∧ phase1 none
          [{ fight_id := "f1", fight_url := "u", event_date := "d",
             weight_class := "w", method := "KO", round := "1" }] = some
        ((if fileExisted none then (none : Option (List (List String))).getD []
            else [FIGHTS_FIELDS])
            ++ (([{ fight_id := "f1", fight_url := "u", event_date := "d",
                      weight_class := "w", method := "KO", round := "1" }] : List Fight).filter
                (fun f => ¬ existing.contains (some f.fight_id))).map fightToRow,
         existing ++ (([{ fight_id := "f1", fight_url := "u", event_date := "d",
                           weight_class := "w", method := "KO", round := "1" }] : List Fight).filter
            (fun f => ¬ existing.contains (some f.fight_id))).map
              (fun f => some f.fight_id)) :=
  phase1_filter_is_upfront none
    [{ fight_id := "f1", fight_url := "u", event_date := "d",
       weight_class := "w", method := "KO", round := "1" }] (Or.inl rfl)

/-! ## Claim C9: control-time normalizer -/

/-- C9: for every `M:SS` string with digit components `parse_control_time` returns
`60*M + SS` seconds, and the sentinels `""`, `"--"`, `"---"` return `0`. -/
theorem parse_control_time_correct :
    (∀ ms ss : List Char, ms ≠ [] → ss ≠ [] →
      ms.all isAsciiDigit = true → ss.all isAsciiDigit = true →
      parse_control_time (String.mk (ms ++ ':' :: ss))
        = 60 * (denote ms : Int) + denote ss)
    ∧ parse_control_time "" = 0
    ∧ parse_control_time "--" = 0
    ∧ parse_control_time "---" = 0 := by
  refine ⟨?_, by decide, by decide, by decide⟩
  intro ms ss h1 h2 hd1 hd2
  obtain ⟨m0, ms', rfl⟩ := List.exists_cons_of_ne_nil h1
  obtain ⟨s0, ss', rfl⟩ := List.exists_cons_of_ne_nil h2
  have hm0 : isAsciiDigit m0 = true := List.all_eq_true.mp hd1 m0 (by simp)
  have hstrip : stripL ((m0 :: ms') ++ ':' :: s0 :: ss') = (m0 :: ms') ++ ':' :: s0 :: ss' := by
    apply stripL_eq_self
    · intro c hc
      rw [List.cons_append, List.head?_cons, Option.some.injEq] at hc
      exact hc ▸ isPySpace_of_digit hm0
    · intro c hc
      rw [getLast?_append_right (by simp),
          show (':' :: s0 :: ss') = [':'] ++ (s0 :: ss') from rfl,
          getLast?_append_right (by simp)] at hc
      exact isPySpace_of_digit
        (List.all_eq_true.mp hd2 c (List.mem_of_mem_getLast? (by simp [hc])))
  unfold parse_control_time
  rw [show (String.mk ((m0 :: ms') ++ ':' :: s0 :: ss')).toList
        = (m0 :: ms') ++ ':' :: s0 :: ss' from rfl, hstrip]
  have hsent : ¬((m0 :: ms') ++ ':' :: s0 :: ss' = []
      ∨ (m0 :: ms') ++ ':' :: s0 :: ss' = "--".toList
      ∨ (m0 :: ms') ++ ':' :: s0 :: ss' = "---".toList) := by
    have hne : m0 ≠ '-' := digit_ne hm0 (by left; decide)
    refine not_or.mpr ⟨by simp, not_or.mpr ⟨?_, ?_⟩⟩ <;>
      · intro heq
        exact hne (by simpa using congrArg List.head? heq)
  have hcm : ':' ∉ (m0 :: ms') := fun hmem =>
    absurd (List.all_eq_true.mp hd1 _ hmem) (by decide)
  have hcs : ':' ∉ (s0 :: ss') := fun hmem =>
    absurd (List.all_eq_true.mp hd2 _ hmem) (by decide)
  unfold parse_control_time_stripped
  rw [if_neg hsent]
  rw [show splitColon ((m0 :: ms') ++ ':' :: s0 :: ss')
        = (m0 :: ms') :: splitOnChar ':' (s0 :: ss') from splitOnChar_append_sep _ hcm,
      splitOnChar_no_sep hcs]
  simp only [pyInt?_of_digits h1 hd1, pyInt?_of_digits h2 hd2]
  ring

/-- Witness for C9: `'4:32'` evaluates to 272 seconds. -/
theorem parse_control_time_correct_witness :
    parse_control_time (String.mk (['4'] ++ ':' :: ['3', '2']))
      = 60 * (denote ['4'] : Int) + denote ['3', '2']
    ∧ parse_control_time "4:32" = 272 := by
  have h := parse_control_time_correct.1 ['4'] ['3', '2']
    (by decide) (by decide) (by decide) (by decide)
  exact ⟨h, by decide⟩

/-! ## Claim C8: fraction normalizer -/

/-- Counterexample for C8: `re.match` anchors only at the start, so a string that
merely begins with the `'<a> of <b>'` pattern — not an `'<a> of <b>'` string and
not a bare integer — still returns the captured pair, not `(0, 0)`. -/
theorem parse_x_of_y_prefix_counterexample :
    parse_x_of_y "12 of 34 junk" = (12, 34) ∧ ((12, 34) : Nat × Nat) ≠ (0, 0) :=
  ⟨by decide, by decide⟩

/-- C8 (amended): a stripped input beginning with `'<a> of <b>'` followed by nothing
or a non-digit yields the two leading numbers `(a, b)` (so in particular every
`'<a> of <b>'` string does); a bare digit string yields `(n, 0)`; a string that
neither matches the leading pattern nor is a bare digit string yields `(0, 0)`;
the function is total (the `ValueError` path of `int` is never reached on these). -/
theorem parse_x_of_y_cases :
    (∀ as bs rest : List Char, as ≠ [] → bs ≠ [] →
      as.all isAsciiDigit = true → bs.all isAsciiDigit = true →
      (∀ c, rest.head? = some c → isAsciiDigit c = false) →
      (∀ c, rest.getLast? = some c → isPySpace c = false) →
      parse_x_of_y (String.mk (as ++ ' ' :: 'o' :: 'f' :: ' ' :: (bs ++ rest)))
        = (denote as, denote bs))
    ∧ (∀ ds : List Char, ds ≠ [] → ds.all isAsciiDigit = true →
      parse_x_of_y (String.mk ds) = (denote ds, 0))
    ∧ (∀ s : String, matchXofY (stripL s.toList) = none →
      ¬(stripL s.toList ≠ [] ∧ (stripL s.toList).all isAsciiDigit = true) →
      parse_x_of_y s = (0, 0)) := by
  refine ⟨?_, ?_, ?_⟩
  · intro as bs rest h1 h2 hd1 hd2 hr hrl
    obtain ⟨a0, as', rfl⟩ := List.exists_cons_of_ne_nil h1
    obtain ⟨b0, bs', rfl⟩ := List.exists_cons_of_ne_nil h2
    have ha0 : isAsciiDigit a0 = true := List.all_eq_true.mp hd1 a0 (by simp)
    have hb0 : isAsciiDigit b0 = true := List.all_eq_true.mp hd2 b0 (by simp)
    have hstrip : stripL ((a0 :: as') ++ ' ' :: 'o' :: 'f' :: ' ' :: ((b0 :: bs') ++ rest))
        = (a0 :: as') ++ ' ' :: 'o' :: 'f' :: ' ' :: ((b0 :: bs') ++ rest) := by
      apply stripL_eq_self
      · intro c hc
        rw [List.cons_append, List.head?_cons, Option.some.injEq] at hc
        exact hc ▸ isPySpace_of_digit ha0
      · intro c hc
        rw [getLast?_append_right (by simp),
            show (' ' :: 'o' :: 'f' :: ' ' :: ((b0 :: bs') ++ rest))
              = [' ', 'o', 'f', ' '] ++ ((b0 :: bs') ++ rest) from rfl,
            getLast?_append_right (by simp)] at hc
        cases rest with
        | nil =>
          rw [List.append_nil] at hc
          exact isPySpace_of_digit
            (List.all_eq_true.mp hd2 c (List.mem_of_mem_getLast? (by simp [hc])))
        | cons r0 rest' =>
          rw [getLast?_append_right (by simp)] at hc
          exact hrl c hc
    have hrun1 := digitsRun_append
      (a0 :: as') (' ' :: 'o' :: 'f' :: ' ' :: ((b0 :: bs') ++ rest))
      0 (List.all_eq_true.mp hd1)
      (by intro c hc; rw [List.head?_cons, Option.some.injEq] at hc; subst hc; decide)
    have hrun2 := digitsRun_append (b0 :: bs') rest 0
      (List.all_eq_true.mp hd2) hr
    simp only [List.cons_append] at hrun1 hrun2
    have hdw1 : ('o' :: 'f' :: ' ' :: (b0 :: (bs' ++ rest))).dropWhile isPySpace
        = 'o' :: 'f' :: ' ' :: (b0 :: (bs' ++ rest)) :=
      dropWhile_eq_self_of_head _
        (by intro c hc; rw [List.head?_cons, Option.some.injEq] at hc; subst hc; decide)
    have hdw2 : (b0 :: (bs' ++ rest)).dropWhile isPySpace = b0 :: (bs' ++ rest) :=
      dropWhile_eq_self_of_head _
        (by intro c hc; rw [List.head?_cons, Option.some.injEq] at hc
            exact hc ▸ isPySpace_of_digit hb0)
    have hmatch : matchXofY ((a0 :: as') ++ ' ' :: 'o' :: 'f' :: ' ' :: ((b0 :: bs') ++ rest))
        = some (denote (a0 :: as'), denote (b0 :: bs')) := by
      simp only [List.cons_append, matchXofY, takeDigits1, ha0, if_true, hrun1, ws1,
        show isPySpace ' ' = true from rfl, hdw1, hdw2, hb0, hrun2]
      rfl
    unfold parse_x_of_y
    rw [show (String.mk ((a0 :: as') ++ ' ' :: 'o' :: 'f' :: ' ' :: ((b0 :: bs') ++ rest))).toList
          = (a0 :: as') ++ ' ' :: 'o' :: 'f' :: ' ' :: ((b0 :: bs') ++ rest) from rfl,
        hstrip]
    unfold parse_x_of_y_stripped
    rw [hmatch]
  · intro ds hne hdig
    obtain ⟨d0, ds', rfl⟩ := List.exists_cons_of_ne_nil hne
    have hd0 : isAsciiDigit d0 = true := List.all_eq_true.mp hdig d0 (by simp)
    have hrun := digitsRun_append (d0 :: ds') [] 0
      (List.all_eq_true.mp hdig) (by intro c hc; simp at hc)
    rw [List.append_nil] at hrun
    have hmatch : matchXofY (d0 :: ds') = none := by
      simp only [matchXofY, takeDigits1, hd0, if_true, hrun, ws1]
    unfold parse_x_of_y
    rw [show (String.mk (d0 :: ds')).toList = d0 :: ds' from rfl, all_digits_stripL hdig]
    unfold parse_x_of_y_stripped
    rw [hmatch, if_pos ⟨by simp, hdig⟩]
  · intro s hm hnd
    unfold parse_x_of_y parse_x_of_y_stripped
    rw [hm, if_neg hnd]

/-- Witness for C8: `'12 of 34'` and the bare digit `'5'`. -/
theorem parse_x_of_y_cases_witness :
    parse_x_of_y (String.mk (['1', '2'] ++ ' ' :: 'o' :: 'f' :: ' ' :: (['3', '4'] ++ [])))
      = (denote ['1', '2'], denote ['3', '4'])
    ∧ parse_x_of_y (String.mk ['5']) = (denote ['5'], 0) :=
  ⟨parse_x_of_y_cases.1 ['1', '2'] ['3', '4'] [] (by decide) (by decide) (by decide)
      (by decide) (fun c hc => by simp at hc) (fun c hc => by simp at hc),
   parse_x_of_y_cases.2.1 ['5'] (by decide) (by decide)⟩

/-! ## Claim C5: parsers on documents lacking their structural anchor -/

/-- Counterexample for C5: the event-list parser does not return an empty sequence on
a page without the results table — the unguarded `table.find_all` raises
`AttributeError`. -/
theorem scrape_events_list_raises :
    scrape_events_list { table := none } = .error "AttributeError" := rfl

/-- C5 (amended): the event-detail parser and the fighter-list parser return an empty
sequence when their structural anchor (table or tbody) is missing; the event-list
parser instead raises an `AttributeError` when the events table is absent (and that
call is made outside any handler, so the run aborts rather than continuing). -/
theorem parsers_on_missing_anchor :
    (∀ (date : String) (p : EventPage), p.table = none →
      scrape_event_page_doc date p = [])
    ∧ (∀ (date : String) (p : EventPage) (t : EventTable), p.table = some t →
      t.tbody = none → scrape_event_page_doc date p = [])
    ∧ (∀ (status : Nat) (p : FightersPage), p.table = none →
      get_fighter_ids_for_letter status p = [])
    ∧ (∀ (status : Nat) (p : FightersPage) (t : FTable), p.table = some t →
      t.tbody = none → get_fighter_ids_for_letter status p = [])
    ∧ (∀ p : EventsPage, p.table = none →
      scrape_events_list p = .error "AttributeError") := by
  refine ⟨?_, ?_, ?_, ?_, ?_⟩
  · intro date p h
    simp [scrape_event_page_doc, h]
  · intro date p t h ht
    simp [scrape_event_page_doc, h, ht]
  · intro status p h
    by_cases hs : status ≠ 200 <;> simp [get_fighter_ids_for_letter, h, hs]
  · intro status p t h ht
    by_cases hs : status ≠ 200 <;> simp [get_fighter_ids_for_letter, h, ht, hs]
  · intro p h
    simp [scrape_events_list, h]

/-- Witness for C5: concrete anchor-less documents for each parser. -/
theorem parsers_on_missing_anchor_witness :
    scrape_event_page_doc "2026-02-21" { table := none } = []
    ∧ get_fighter_ids_for_letter 200 { table := none } = []
    ∧ scrape_events_list { table := some { rows := [] } } = .ok [] :=
  ⟨parsers_on_missing_anchor.1 "2026-02-21" { table := none } rfl,
   parsers_on_missing_anchor.2.2.1 200 { table := none } rfl,
   rfl⟩

/-! ## Claim C7: date normalizer -/

theorem denote_one (e : Char) : denote [e] = digitVal e := by
  simp [denote]

theorem denote_two (e f : Char) : denote [e, f] = 10 * digitVal e + digitVal f := by
  simp [denote]

theorem denote_four (a b c d : Char) :
    denote [a, b, c, d]
      = 1000 * digitVal a + 100 * digitVal b + 10 * digitVal c + digitVal d := by
  simp [denote]
  ring

theorem daysInMonth_le_31 (m y : Nat) : daysInMonth m y ≤ 31 := by
  unfold daysInMonth
  split_ifs <;> omega

theorem monthName_ne_nil (i : Fin 12) : monthNames.getD i.val [] ≠ [] := by
  fin_cases i <;> simp [monthNames]

theorem monthName_head_not_space (i : Fin 12) :
    ∀ c, (monthNames.getD i.val []).head? = some c → isPySpace c = false := by
  fin_cases i <;>
    · intro c hc
      simp [monthNames] at hc
      subst hc
      decide

theorem matchMonth_name (i : Fin 12) (rest : List Char) :
    matchMonth ((monthNames.getD i.val []) ++ rest) = some (i.val + 1, rest) := by
  fin_cases i <;> simp [matchMonth, matchMonthGo, monthNames, matchPrefixCI]

theorem parseRest_shape (m : Nat) (ds ys : List Char)
    (hne : ds ≠ []) (hlen : ds.length ≤ 2) (hdig : ds.all isAsciiDigit = true)
    (hd1 : 1 ≤ denote ds) (hday : denote ds ≤ daysInMonth m (denote ys))
    (hylen : ys.length = 4) (hydig : ys.all isAsciiDigit = true)
    (hy1 : 1 ≤ denote ys) :
    parseRest m (' ' :: (ds ++ ',' :: ' ' :: ys)) = some (denote ys, m, denote ds) := by
  obtain ⟨a, b, c, d, rfl⟩ : ∃ a b c d, ys = [a, b, c, d] := by
    rcases ys with _ | ⟨a, _ | ⟨b, _ | ⟨c, _ | ⟨d, _ | ⟨e, tl⟩⟩⟩⟩⟩ <;>
      first
        | (exact ⟨a, b, c, d, rfl⟩)
        | (exfalso; simp at hylen)
  have ha : isAsciiDigit a = true := List.all_eq_true.mp hydig a (by simp)
  have hb : isAsciiDigit b = true := List.all_eq_true.mp hydig b (by simp)
  have hc : isAsciiDigit c = true := List.all_eq_true.mp hydig c (by simp)
  have hd : isAsciiDigit d = true := List.all_eq_true.mp hydig d (by simp)
  have hy1' : 1 ≤ 1000 * digitVal a + 100 * digitVal b + 10 * digitVal c + digitVal d := by
    rw [denote_four] at hy1
    exact hy1
  rcases ds with _ | ⟨e, _ | ⟨f, _ | ⟨g, tl⟩⟩⟩
  · exact absurd rfl hne
  · -- single-digit day
    have he : isAsciiDigit e = true := List.all_eq_true.mp hdig e (by simp)
    have h1e : 1 ≤ digitVal e := by rw [denote_one] at hd1; exact hd1
    have hday' : digitVal e
        ≤ daysInMonth m (1000 * digitVal a + 100 * digitVal b + 10 * digitVal c + digitVal d) := by
      rw [denote_one, denote_four] at hday
      exact hday
    simp only [parseRest, List.cons_append, List.nil_append, ws1,
      show isPySpace ' ' = true from rfl, if_true,
      List.dropWhile_cons, isPySpace_of_digit he, Bool.false_eq_true, if_false,
      parseDay, he, show isAsciiDigit ',' = false from rfl,
      h1e, litComma, if_pos rfl, isPySpace_of_digit ha,
      parseYear4, ha, hb, hc, hd, and_self, denote_one, denote_four,
      hy1', hday', and_true, true_and]
  · -- two-digit day
    have he : isAsciiDigit e = true := List.all_eq_true.mp hdig e (by simp)
    have hf : isAsciiDigit f = true := List.all_eq_true.mp hdig f (by simp)
    have hn : 1 ≤ 10 * digitVal e + digitVal f ∧ 10 * digitVal e + digitVal f ≤ 31 := by
      rw [denote_two] at hd1 hday
      exact ⟨hd1, le_trans hday (daysInMonth_le_31 _ _)⟩
    have hday' : 10 * digitVal e + digitVal f
        ≤ daysInMonth m (1000 * digitVal a + 100 * digitVal b + 10 * digitVal c + digitVal d) := by
      rw [denote_two, denote_four] at hday
      exact hday
    simp only [parseRest, List.cons_append, List.nil_append, ws1,
      show isPySpace ' ' = true from rfl, if_true,
      List.dropWhile_cons, isPySpace_of_digit he, Bool.false_eq_true, if_false,
      parseDay, he, hf, litComma, if_pos rfl, isPySpace_of_digit ha,
      parseYear4, ha, hb, hc, hd, and_self, denote_two, denote_four,
      hy1', hday', hn.1, hn.2, and_true, true_and]
  · exfalso
    simp at hlen

/-- Counterexample for C7: a syntactically well-formed date denoting an invalid
calendar day passes through rather than mapping to ISO form, and an unparseable
string with surrounding whitespace is returned stripped, not verbatim. -/
theorem parse_event_date_not_verbatim :
    parse_event_date "February 30, 2026" = "February 30, 2026"
    ∧ parse_event_date "  not a date  " = "not a date"
    ∧ ("not a date" : String) ≠ "  not a date  " :=
  ⟨by decide, by decide, by decide⟩

/-- C7 (amended): every string `'<MonthName> <D>, <Y>'` whose components denote a
valid calendar date (day within the month, 4-digit year ≥ 1) maps to its zero-padded
ISO-8601 rendering; every string `strptime` rejects is returned whitespace-stripped
(so unchanged exactly when it has no surrounding whitespace). -/
theorem parse_event_date_correct :
    (∀ (mi : Fin 12) (ds ys : List Char),
      ds ≠ [] → ds.length ≤ 2 → ds.all isAsciiDigit = true →
      1 ≤ denote ds → denote ds ≤ daysInMonth (mi.val + 1) (denote ys) →
      ys.length = 4 → ys.all isAsciiDigit = true → 1 ≤ denote ys →
      parse_event_date (String.mk ((monthNames.getD mi.val [])
          ++ ' ' :: (ds ++ ',' :: ' ' :: ys)))
        = String.mk (pad4 (denote ys) ++ '-' :: (pad2 (mi.val + 1) ++ '-' :: pad2 (denote ds))))
    ∧ (∀ s : String, strptimeBDY (stripL s.toList) = none →
      parse_event_date s = String.mk (stripL s.toList)) := by
  constructor
  · intro mi ds ys hne hlen hdig hd1 hday hylen hydig hy1
    have hysne : ys ≠ [] := by
      intro h
      rw [h] at hylen
      simp at hylen
    have hstrip : stripL ((monthNames.getD mi.val []) ++ ' ' :: (ds ++ ',' :: ' ' :: ys))
        = (monthNames.getD mi.val []) ++ ' ' :: (ds ++ ',' :: ' ' :: ys) := by
      apply stripL_eq_self
      · intro c hc
        obtain ⟨mc, M', hM⟩ := List.exists_cons_of_ne_nil (monthName_ne_nil mi)
        rw [hM, List.cons_append, List.head?_cons, Option.some.injEq] at hc
        exact hc ▸ monthName_head_not_space mi mc (by rw [hM]; rfl)
      · intro c hc
        rw [getLast?_append_right (by simp),
            show (' ' :: (ds ++ ',' :: ' ' :: ys)) = [' '] ++ (ds ++ ',' :: ' ' :: ys)
              from rfl,
            getLast?_append_right (by simp),
            getLast?_append_right (by simp),
            show (',' :: ' ' :: ys) = [',', ' '] ++ ys from rfl,
            getLast?_append_right hysne] at hc
        exact isPySpace_of_digit
          (List.all_eq_true.mp hydig c (List.mem_of_mem_getLast? (by simp [hc])))
    unfold parse_event_date
    rw [show (String.mk ((monthNames.getD mi.val [])
          ++ ' ' :: (ds ++ ',' :: ' ' :: ys))).toList
        = (monthNames.getD mi.val []) ++ ' ' :: (ds ++ ',' :: ' ' :: ys) from rfl,
      hstrip]
    unfold parse_event_date_stripped strptimeBDY
    rw [matchMonth_name mi (' ' :: (ds ++ ',' :: ' ' :: ys))]
    simp only [parseRest_shape (mi.val + 1) ds ys hne hlen hdig hd1 hday hylen hydig hy1]
  · intro s hm
    unfold parse_event_date parse_event_date_stripped
    rw [hm]

/-- Witness for C7: `'February 21, 2026'` maps to `'2026-02-21'`, and an unparseable
string passes through stripped. -/
theorem parse_event_date_correct_witness :
    parse_event_date (String.mk ((monthNames.getD (1 : Fin 12).val [])
        ++ ' ' :: (['2', '1'] ++ ',' :: ' ' :: ['2', '0', '2', '6'])))
      = String.mk (pad4 (denote ['2', '0', '2', '6'])
          ++ '-' :: (pad2 ((1 : Fin 12).val + 1) ++ '-' :: pad2 (denote ['2', '1'])))
    ∧ parse_event_date "2026?" = String.mk (stripL ("2026?".toList))
    ∧ parse_event_date "February 21, 2026" = "2026-02-21" := by
  refine ⟨parse_event_date_correct.1 1 ['2', '1'] ['2', '0', '2', '6'] (by decide)
      (by decide) (by decide) (by decide) (by decide) (by decide) (by decide) (by decide),
    parse_event_date_correct.2 "2026?" (by decide), by decide⟩

end UFC
